import Mathlib

/-!
Shallow embedding of the Arcade-Cube simulation core (`src/main.js`).

Positions and sizes are modelled over `ℚ` (the JavaScript code computes with
IEEE doubles; the exact-rational model follows the arithmetic of the source
expressions).  Randomness (`Math.random()`) is injected as a stream
`rand : ℕ → ℚ` whose values are consumed in source order, threading an index.
The single irrational operation of the code, the benign-obstacle push vector
`player.position.sub(obstacle.position).normalize().multiplyScalar(2)`
(lines 356-358), involves a Euclidean norm (a square root), which has no
exact rational value; the model therefore takes the map from the difference
vector to the push vector as an explicit parameter `push : Vec3 → Vec3` and
every theorem below quantifies over it, so each proved statement holds in
particular for the real normalize-and-scale map.  Likewise the axis-aligned
bounding box of the 3-segment cone meshes (life / clear-all triangles) has
the irrational half-width `5 * sqrt 3 / 2` on the x axis; it is abstracted
as the parameter `cHx`.
-/

namespace ArcadeCube

/-- Ground/space coordinates, mirroring `THREE.Vector3`. -/
structure Vec3 where
  x : ℚ
  y : ℚ
  z : ℚ
deriving DecidableEq, Repr

instance : Add Vec3 := ⟨fun a b => ⟨a.x + b.x, a.y + b.y, a.z + b.z⟩⟩

instance : Sub Vec3 := ⟨fun a b => ⟨a.x - b.x, a.y - b.y, a.z - b.z⟩⟩

theorem Vec3.add_def (a b : Vec3) : a + b = ⟨a.x + b.x, a.y + b.y, a.z + b.z⟩ := rfl

theorem Vec3.sub_def (a b : Vec3) : a - b = ⟨a.x - b.x, a.y - b.y, a.z - b.z⟩ := rfl

@[simp] theorem Vec3.add_x (a b : Vec3) : (a + b).x = a.x + b.x := rfl

@[simp] theorem Vec3.add_y (a b : Vec3) : (a + b).y = a.y + b.y := rfl

@[simp] theorem Vec3.add_z (a b : Vec3) : (a + b).z = a.z + b.z := rfl

@[simp] theorem Vec3.sub_x (a b : Vec3) : (a - b).x = a.x - b.x := rfl

@[simp] theorem Vec3.sub_y (a b : Vec3) : (a - b).y = a.y - b.y := rfl

@[simp] theorem Vec3.sub_z (a b : Vec3) : (a - b).z = a.z - b.z := rfl

/-- Axis-aligned box, mirroring `THREE.Box3`. -/
structure Box where
  min : Vec3
  max : Vec3
deriving DecidableEq, Repr

/-- Intersection test of `THREE.Box3.intersectsBox` (touching boxes count as
intersecting: the separation tests are strict). -/
def intersectsBox (a b : Box) : Bool :=
  !(decide (b.max.x < a.min.x) || decide (b.min.x > a.max.x) ||
    decide (b.max.y < a.min.y) || decide (b.min.y > a.max.y) ||
    decide (b.max.z < a.min.z) || decide (b.min.z > a.max.z))

/-- Bounding box of a size-10 cube mesh centered at `pos`
(`Box3.setFromObject` on an unrotated `BoxGeometry(10,10,10)` mesh, and also
`Box3.setFromCenterAndSize(pos, (10,10,10))`). -/
def cubeBox (pos : Vec3) : Box :=
  ⟨⟨pos.x - 5, pos.y - 5, pos.z - 5⟩, ⟨pos.x + 5, pos.y + 5, pos.z + 5⟩⟩

/-- Bounding box of a `ConeGeometry(5, 10, 3)` mesh rotated by π about x and
centered at `pos`.  The base vertices sit at angles 0, 2π/3, 4π/3, giving
(pre-rotation) x-extent `± 5 * sqrt 3 / 2` and z-extent `[-2.5, 5]`; the
rotation flips z.  The irrational x half-width is the parameter `cHx`. -/
def coneBox (cHx : ℚ) (pos : Vec3) : Box :=
  ⟨⟨pos.x - cHx, pos.y - 5, pos.z - 5⟩, ⟨pos.x + cHx, pos.y + 5, pos.z + 5/2⟩⟩

/-- The four boundary walls (`createBoundary`, hard-coded `mazeSize = 200`,
thickness 5, height 15): AABBs of the wall meshes, the ±x walls being the
π/2-rotated copies. -/
def walls : List Box :=
  [⟨⟨-200, 0, 395/2⟩, ⟨200, 15, 405/2⟩⟩,
   ⟨⟨-200, 0, -405/2⟩, ⟨200, 15, -395/2⟩⟩,
   ⟨⟨395/2, 0, -200⟩, ⟨405/2, 15, 200⟩⟩,
   ⟨⟨-405/2, 0, -200⟩, ⟨-395/2, 15, 200⟩⟩]

/-- Function `checkCollision` (line 440): box intersection of two entities,
here specialised to two cube meshes via their centers. -/
def checkCollision (p q : Vec3) : Bool :=
  intersectsBox (cubeBox p) (cubeBox q)

/-- Function `checkWallCollision` (line 447) applied to a player clone whose
position is `pos`. -/
def checkWallCollisionAt (pos : Vec3) : Bool :=
  walls.any (fun wb => intersectsBox (cubeBox pos) wb)

/-- Function `applyMovement` (line 416): offset the player box by the full
velocity, reject the move entirely if any wall intersects, otherwise commit
`position + velocity`.  Returns the new position and the collision flag. -/
def applyMovement (pos velocity : Vec3) : Vec3 × Bool :=
  let newPosition := pos + velocity
  let movedBox : Box := ⟨(cubeBox pos).min + velocity, (cubeBox pos).max + velocity⟩
  let collision := walls.any (fun wb => intersectsBox movedBox wb)
  (if collision then pos else newPosition, collision)

/-- Key state consumed by `updateMovement` (the ten tracked keys of
`setupControls`). -/
structure Keys where
  arrowUp : Bool
  arrowDown : Bool
  arrowLeft : Bool
  arrowRight : Bool
  keyW : Bool
  keyA : Bool
  keyS : Bool
  keyD : Bool
  keyZ : Bool
  keyQ : Bool
deriving DecidableEq, Repr

/-- All-keys-released input. -/
def Keys.none : Keys := ⟨false, false, false, false, false, false, false, false, false, false⟩

/-- Velocity accumulation of `updateMovement` (lines 392-410): contributions
are additive in source order; note the source adds `keys.s` and `keys.d`
twice (once in the WASD block and once in the ZQSD block). -/
def velocityOf (keys : Keys) (moveSpeed : ℚ) : Vec3 :=
  let z1 : ℚ := if keys.arrowUp then 0 - moveSpeed else 0
  let z2 := if keys.arrowDown then z1 + moveSpeed else z1
  let x1 : ℚ := if keys.arrowLeft then 0 - moveSpeed else 0
  let x2 := if keys.arrowRight then x1 + moveSpeed else x1
  let z3 := if keys.keyW then z2 - moveSpeed else z2
  let z4 := if keys.keyS then z3 + moveSpeed else z3
  let x3 := if keys.keyA then x2 - moveSpeed else x2
  let x4 := if keys.keyD then x3 + moveSpeed else x3
  let z5 := if keys.keyZ then z4 - moveSpeed else z4
  let z6 := if keys.keyS then z5 + moveSpeed else z5
  let x5 := if keys.keyQ then x4 - moveSpeed else x4
  let x6 := if keys.keyD then x5 + moveSpeed else x5
  ⟨x6, 0, z6⟩

/-- An obstacle entity: position plus the immutable `isHazard` flag set at
creation (`createObstacle`). -/
structure Obstacle where
  pos : Vec3
  isHazard : Bool
deriving DecidableEq, Repr

/-- The mutable session data of `init` (line 525) plus the positions and
visibility flags of the singleton entities the tick reads and writes. -/
structure World where
  playerPos : Vec3
  collectiblePos : Vec3
  obstacles : List Obstacle
  lifeVisible : Bool
  lifePos : Vec3
  clearVisible : Bool
  clearPos : Vec3
  score : ℕ
  timeRemaining : ℚ
  lives : ℤ
deriving DecidableEq, Repr

/-- The grid-sampling expression shared by `repositionObject` (line 382) and
`findValidObstaclePosition` (line 492):
`Math.floor(Math.random() * (e * 2) - e) / 10 * 10` with
`e = mazeSize - 5`.  The floor wraps the whole product, so the trailing
`/ 10 * 10` divides and immediately re-multiplies the integer. -/
def gridSample (e r : ℚ) : ℚ :=
  ((⌊r * (e * 2) - e⌋ : ℤ) : ℚ) / 10 * 10

/-- Per-axis clamp used after sampling (lines 388-389 and 498-499). -/
def clampAxis (mazeSize v : ℚ) : ℚ :=
  max (min v (mazeSize - 5)) (-mazeSize + 5)

/-- Function `repositionObject` (line 376): sample both ground axes, pin
`y = 5`, clamp into the arena.  Consumes `rand k` and `rand (k+1)` and
returns the next unread stream index. -/
def repositionObject (rand : ℕ → ℚ) (k : ℕ) (mazeSize : ℚ) : Vec3 × ℕ :=
  let e := mazeSize - 5
  let x0 := gridSample e (rand k)
  let z0 := gridSample e (rand (k + 1))
  (⟨clampAxis mazeSize x0, 5, clampAxis mazeSize z0⟩, k + 2)

/-- Function `isValidPosition` (line 459): inside the arena and not
overlapping any obstacle, the player, or the collectible (all probed with the
standard size-10 box). -/
def isValidPosition (position : Vec3) (obstacles : List Obstacle)
    (playerPos collectiblePos : Vec3) (mazeSize : ℚ) : Bool :=
  if decide (mazeSize ≤ |position.x|) || decide (mazeSize ≤ |position.z|) then
    false
  else
    let tempBox := cubeBox position
    if obstacles.any (fun o => intersectsBox tempBox (cubeBox o.pos)) then
      false
    else if intersectsBox tempBox (cubeBox playerPos) ||
            intersectsBox tempBox (cubeBox collectiblePos) then
      false
    else
      true

/-- One sampling attempt of `findValidObstaclePosition` (lines 491-499). -/
def sampleCandidate (rand : ℕ → ℚ) (k : ℕ) (mazeSize : ℚ) : Vec3 :=
  let e := mazeSize - 5
  let x0 := gridSample e (rand k)
  let z0 := gridSample e (rand (k + 1))
  ⟨clampAxis mazeSize x0, 5, clampAxis mazeSize z0⟩

/-- The bounded retry loop of `findValidObstaclePosition`, with the remaining
attempt budget as fuel; each attempt consumes two stream values. -/
def findValidAux (rand : ℕ → ℚ) (playerPos collectiblePos : Vec3)
    (obstacles : List Obstacle) (mazeSize : ℚ) :
    ℕ → ℕ → Option Vec3 × ℕ
  | 0, k => (none, k)
  | fuel + 1, k =>
    let position := sampleCandidate rand k mazeSize
    if isValidPosition position obstacles playerPos collectiblePos mazeSize then
      (some position, k + 2)
    else
      findValidAux rand playerPos collectiblePos obstacles mazeSize fuel (k + 2)

/-- Function `findValidObstaclePosition` (line 484): `maxAttempts = 100`
rejection-sampling tries, `none` on exhaustion. -/
def findValidObstaclePosition (rand : ℕ → ℚ) (playerPos collectiblePos : Vec3)
    (obstacles : List Obstacle) (mazeSize : ℚ) (k : ℕ) : Option Vec3 × ℕ :=
  findValidAux rand playerPos collectiblePos obstacles mazeSize 100 k

/-- The benign-obstacle push resolution (lines 356-366): tentatively move the
player by the push vector computed from `playerPos - obstaclePos` and commit
only if the pushed position hits no wall.  `push` abstracts
`normalize(·).multiplyScalar(2)` (irrational in general, see the header). -/
def resolvePush (push : Vec3 → Vec3) (playerPos obstaclePos : Vec3) : Vec3 :=
  let potentialPosition := playerPos + push (playerPos - obstaclePos)
  if checkWallCollisionAt potentialPosition then playerPos else potentialPosition

/-- Result of the obstacle-interaction loop. -/
structure ObsOut where
  pos : Vec3
  obstacles : List Obstacle
  lives : ℤ
  cont : Bool
deriving DecidableEq, Repr

/-- The obstacle-interaction loop (lines 344-369), with the JavaScript
`for...of` + `splice` semantics made explicit: removing the current hazard
shifts the following obstacle into its index, so the iterator passes over it
(that obstacle stays in the list unprocessed); on a fatal hazard
(`lives - 1 ≤ 0`) the function returns `false` before the splice, leaving the
hazard in the list. -/
def processObstacles (push : Vec3 → Vec3) :
    List Obstacle → Vec3 → ℤ → ObsOut
  | [], pos, lives => ⟨pos, [], lives, true⟩
  | o :: rest, pos, lives =>
    if checkCollision pos o.pos then
      if o.isHazard then
        if lives - 1 ≤ 0 then
          ⟨pos, o :: rest, lives - 1, false⟩
        else
          match rest with
          | [] => ⟨pos, [], lives - 1, true⟩
          | r :: rest2 =>
            let t := processObstacles push rest2 pos (lives - 1)
            ⟨t.pos, r :: t.obstacles, t.lives, t.cont⟩
      else
        let pos2 := resolvePush push pos o.pos
        let t := processObstacles push rest pos2 lives
        ⟨t.pos, o :: t.obstacles, t.lives, t.cont⟩
    else
      let t := processObstacles push rest pos lives
      ⟨t.pos, o :: t.obstacles, t.lives, t.cont⟩

/-- Outcome of the hazard-or-life spawn rolls inside the pickup block. -/
structure SpawnOut where
  obstacles : List Obstacle
  lifeVisible : Bool
  lifePos : Vec3
  randIdx : ℕ
deriving DecidableEq, Repr

/-- Lines 297-311: with probability 0.4 attempt to place a hazard obstacle;
otherwise, with probability 0.2, attempt to place and reveal the life
triangle.  The second `Math.random()` is only drawn in the `else` branch.
Placement failure (`none`) is silently skipped. -/
def hazardOrLifeSpawn (rand : ℕ → ℚ) (mazeSize : ℚ) (playerPos collectiblePos : Vec3)
    (obstacles : List Obstacle) (lifeVisible : Bool) (lifePos : Vec3) (k : ℕ) :
    SpawnOut :=
  if decide (rand k < 4/10) then
    let f := findValidObstaclePosition rand playerPos collectiblePos obstacles mazeSize (k + 1)
    match f.1 with
    | some p => ⟨obstacles ++ [⟨p, true⟩], lifeVisible, lifePos, f.2⟩
    | none => ⟨obstacles, lifeVisible, lifePos, f.2⟩
  else if decide (rand (k + 1) < 2/10) then
    let f := findValidObstaclePosition rand playerPos collectiblePos obstacles mazeSize (k + 2)
    match f.1 with
    | some p => ⟨obstacles, true, p, f.2⟩
    | none => ⟨obstacles, lifeVisible, lifePos, f.2⟩
  else
    ⟨obstacles, lifeVisible, lifePos, k + 2⟩

/-- Outcome of the clear-all spawn check. -/
structure ClearOut where
  clearVisible : Bool
  clearPos : Vec3
  randIdx : ℕ
deriving DecidableEq, Repr

/-- Lines 313-320: every 50th collected cube, attempt to place and reveal the
clear-all triangle. -/
def clearSpawn (rand : ℕ → ℚ) (mazeSize : ℚ) (playerPos collectiblePos : Vec3)
    (obstacles : List Obstacle) (clearVisible : Bool) (clearPos : Vec3)
    (score1 : ℕ) (k : ℕ) : ClearOut :=
  if score1 % 50 = 0 then
    let f := findValidObstaclePosition rand playerPos collectiblePos obstacles mazeSize k
    match f.1 with
    | some p => ⟨true, p, f.2⟩
    | none => ⟨clearVisible, clearPos, f.2⟩
  else
    ⟨clearVisible, clearPos, k⟩

/-- The collectible-pickup block (lines 272-321), entered when the player box
intersects the collectible box: increment score, add the diminishing time
bonus clamped to 60, increment the local `difficulty` variable, append a new
falling obstacle at the collectible's old ground position with `y = 1000`
(the landing tween is a fire-and-forget cosmetic task), reposition the
collectible, then run the spawn rolls.  `st.playerPos` is already the
resolved post-movement position. -/
def pickupBlock (rand : ℕ → ℚ) (mazeSize : ℚ) (st : World) (difficulty : ℚ)
    (k : ℕ) : World × ℚ × ℕ :=
  let score1 := st.score + 1
  let oldPosition := st.collectiblePos
  let timeBonus := max (3 - difficulty * (2/10)) (1/2)
  let tr1 := min (st.timeRemaining + timeBonus) 60
  let difficulty1 := difficulty + 1
  let newObstacle : Obstacle := ⟨⟨oldPosition.x, 1000, oldPosition.z⟩, false⟩
  let obstacles1 := st.obstacles ++ [newObstacle]
  let rp := repositionObject rand k mazeSize
  let sp := hazardOrLifeSpawn rand mazeSize st.playerPos rp.1 obstacles1
    st.lifeVisible st.lifePos rp.2
  let cs := clearSpawn rand mazeSize st.playerPos rp.1 sp.obstacles
    st.clearVisible st.clearPos score1 sp.randIdx
  ({ st with
      score := score1
      timeRemaining := tr1
      collectiblePos := rp.1
      obstacles := sp.obstacles
      lifeVisible := sp.lifeVisible
      lifePos := sp.lifePos
      clearVisible := cs.clearVisible
      clearPos := cs.clearPos }, difficulty1, cs.randIdx)

/-- Life-triangle collision check (lines 324-329): on contact with the
visible pickup, increment `lives` and hide it only when `lives < 4`;
at `lives = 4` nothing at all happens (the pickup stays visible). -/
def lifePhase (cHx : ℚ) (st : World) : World :=
  if st.lifeVisible && intersectsBox (cubeBox st.playerPos) (coneBox cHx st.lifePos) then
    if st.lives < 4 then
      { st with lives := st.lives + 1, lifeVisible := false }
    else st
  else st

/-- Clear-all-triangle collision check (lines 332-341): remove every hazard
obstacle, keep the rest in order, hide the pickup. -/
def clearPhase (cHx : ℚ) (st : World) : World :=
  if st.clearVisible && intersectsBox (cubeBox st.playerPos) (coneBox cHx st.clearPos) then
    { st with
      obstacles := st.obstacles.filter (fun o => !o.isHazard)
      clearVisible := false }
  else st

/-- Result of one call of `update`: the new world, the final value of the
local `difficulty` parameter (the caller in `init` never stores it), the next
random-stream index, and the continue signal. -/
structure TickResult where
  world : World
  difficulty : ℚ
  randIdx : ℕ
  cont : Bool
deriving DecidableEq, Repr

/-- Lines 268-269: movement resolution at speed `2 + difficulty * 0.5`
followed by the ground pin `player.position.y = cubeSize / 2`. -/
def resolvedPos (keys : Keys) (st : World) (difficulty : ℚ) : Vec3 :=
  let moved := (applyMovement st.playerPos (velocityOf keys (2 + difficulty * (1/2)))).1
  ⟨moved.x, 5, moved.z⟩

/-- Tail of the per-frame step after the collectible check: the life and
clear-all pickup phases, the obstacle loop (which may return game-over
early, in which case the time decrement at line 371 is skipped), the timer
decrement by 1/60, and the continue signal
`timeRemaining > 0 && lives > 0`. -/
def updateTail (push : Vec3 → Vec3) (cHx : ℚ) (w1 : World) (d1 : ℚ)
    (k1 : ℕ) : TickResult :=
  let st3 := clearPhase cHx (lifePhase cHx w1)
  let t := processObstacles push st3.obstacles st3.playerPos st3.lives
  if t.cont = false then
    { world := { st3 with
        playerPos := t.pos
        obstacles := t.obstacles
        lives := t.lives }
      difficulty := d1
      randIdx := k1
      cont := false }
  else
    let tr2 := st3.timeRemaining - 1/60
    { world := { st3 with
        playerPos := t.pos
        obstacles := t.obstacles
        lives := t.lives
        timeRemaining := tr2 }
      difficulty := d1
      randIdx := k1
      cont := decide (0 < tr2) && decide (0 < t.lives) }

/-- The per-frame step, function `update` (lines 266-374): resolve movement,
pin the player to the ground plane, run the collectible-pickup block when the
player touches the collectible, then the tail phases. -/
def update (push : Vec3 → Vec3) (cHx : ℚ) (rand : ℕ → ℚ) (mazeSize : ℚ)
    (keys : Keys) (st : World) (difficulty : ℚ) (k : ℕ) : TickResult :=
  let st0 := { st with playerPos := resolvedPos keys st difficulty }
  let picked :=
    if checkCollision st0.playerPos st0.collectiblePos then
      pickupBlock rand mazeSize st0 difficulty k
    else (st0, difficulty, k)
  updateTail push cHx picked.1 picked.2.1 picked.2.2

/-- The session state built by `init` (lines 508-535): player at the origin
on the ground, collectible repositioned once (consuming the first two random
draws), hidden pickups, no obstacles, `score = 0`, `timeRemaining = 30`,
`lives = 3`. -/
def initialWorld (rand : ℕ → ℚ) : World :=
  { playerPos := ⟨0, 5, 0⟩
    collectiblePos := (repositionObject rand 0 200).1
    obstacles := []
    lifeVisible := false
    lifePos := ⟨0, 5, 0⟩
    clearVisible := false
    clearPos := ⟨0, 5, 0⟩
    score := 0
    timeRemaining := 30
    lives := 3 }

/-- The `gameLoop` recursion of `init` (lines 538-546) run for `n` frames:
state is (world, difficulty variable, random index, continue flag).  The
closure variable `difficulty` of `init` is declared `let difficulty = 0` and
never reassigned: `update` receives it by value and its `difficulty++` acts
on the local copy only, so the stored component never changes. -/
def runSession (push : Vec3 → Vec3) (cHx : ℚ) (rand : ℕ → ℚ)
    (keysAt : ℕ → Keys) : ℕ → World × ℚ × ℕ × Bool
  | 0 => (initialWorld rand, 0, 2, true)
  | n + 1 =>
    let s := runSession push cHx rand keysAt n
    if s.2.2.2 = true then
      let r := update push cHx rand 200 (keysAt n) s.1 s.2.1 s.2.2.1
      (r.world, s.2.1, r.randIdx, r.cont)
    else s

/-- Interleaved effect of the landing tween (`animateObstacleLanding`): the
cosmetic task writes only the animated obstacle's `position.y` (and its
rotation, which the simulation never reads); the obstacle list, every flag,
every other coordinate, and the session data are untouched. -/
def TweenWrite (a b : World) : Prop :=
  ∃ obs2, b = { a with obstacles := obs2 } ∧
    List.Forall₂ (fun o o2 : Obstacle =>
      o2.isHazard = o.isHazard ∧ o2.pos.x = o.pos.x ∧ o2.pos.z = o.pos.z)
      a.obstacles obs2

/-- States reachable by the real frame loop: the initial state, any state
produced by `update` from an active reachable state (always with
`difficulty = 0`, as the program does — see `runSession`), and any tween
interleaving. -/
inductive Reachable (push : Vec3 → Vec3) (cHx : ℚ) (rand : ℕ → ℚ) :
    World → ℕ → Bool → Prop
  | init : Reachable push cHx rand (initialWorld rand) 2 true
  | step (w : World) (k : ℕ) (keys : Keys) :
      Reachable push cHx rand w k true →
      Reachable push cHx rand (update push cHx rand 200 keys w 0 k).world
        (update push cHx rand 200 keys w 0 k).randIdx
        (update push cHx rand 200 keys w 0 k).cont
  | tween (w w2 : World) (k : ℕ) (c : Bool) :
      Reachable push cHx rand w k c → TweenWrite w w2 →
      Reachable push cHx rand w2 k c

/-- A single benign-interaction step at the evolving player position, as the
loop body performs it for non-hazard obstacles. -/
def pushStep (push : Vec3 → Vec3) (p : Vec3) (o : Obstacle) : Vec3 :=
  if checkCollision p o.pos then resolvePush push p o.pos else p

/-- Trivial push map, usable in concrete runs in which no benign-obstacle
contact ever occurs (the loop never consults `push` there). -/
def pushZero : Vec3 → Vec3 := fun _ => ⟨0, 0, 0⟩

/-- The exact push vector `normalize(v) * 2` for the axis-aligned difference
`v = (-6, 0, 0)` arising in the skipped-obstacle scenario below; on that
input the norm is rational and the real map returns exactly `(-2, 0, 0)`. -/
def pushMinus2X : Vec3 → Vec3 := fun _ => ⟨-2, 0, 0⟩

/-- Rational stand-in for the cone bounding-box half-width `5 * sqrt 3 / 2`;
in every concrete run below the triangles are invisible or dead-centred, so
the exact value is never consulted. -/
def coneHalfX : ℚ := 433/100

/-- Constant all-released key stream. -/
def keysIdle : ℕ → Keys := fun _ => Keys.none

/-- Random stream for the lost-difficulty run: the first two draws (1/2)
place the collectible at the origin on top of the player, the next two
(59/78) respawn it at (100, 100), and the remaining draws (1/2) fail both
the hazard roll (1/2 ≥ 0.4) and the life roll (1/2 ≥ 0.2). -/
def randPickupOnce : ℕ → ℚ :=
  fun n => if n < 2 then 1/2 else if n < 4 then 59/78 else 1/2

/-- Constant stream 1/2: every `repositionObject` lands at the origin, every
hazard and life roll fails. -/
def randHalf : ℕ → ℚ := fun _ => 1/2

/-- Constant stream 51/100: `gridSample` with arena half-extent 195 floors
`0.51 * 390 - 195 = 3.9` to the integer 3, which is not on the 10-unit
grid. -/
def randFiftyOne : ℕ → ℚ := fun _ => 51/100

/-- A hazard obstacle sitting at the player start position. -/
def hazardAtOrigin : Obstacle := ⟨⟨0, 5, 0⟩, true⟩

/-- A benign obstacle overlapping the player start position from +x. -/
def benignAtSix : Obstacle := ⟨⟨6, 5, 0⟩, false⟩

/-- Session state for the fatal-hazard scenario: one life left, one hazard on
the player, collectible far away, pickups hidden. -/
def worldFatalHazard : World :=
  { playerPos := ⟨0, 5, 0⟩
    collectiblePos := ⟨100, 5, 100⟩
    obstacles := [hazardAtOrigin]
    lifeVisible := false
    lifePos := ⟨0, 5, 0⟩
    clearVisible := false
    clearPos := ⟨0, 5, 0⟩
    score := 0
    timeRemaining := 30
    lives := 1 }

/-- Session state for the skipped-obstacle scenario: three lives, a hazard on
the player followed in the list by a benign obstacle also overlapping the
player. -/
def worldSkip : World :=
  { playerPos := ⟨0, 5, 0⟩
    collectiblePos := ⟨100, 5, 100⟩
    obstacles := [hazardAtOrigin, benignAtSix]
    lifeVisible := false
    lifePos := ⟨0, 5, 0⟩
    clearVisible := false
    clearPos := ⟨0, 5, 0⟩
    score := 0
    timeRemaining := 30
    lives := 3 }

/-- Session state for the quiet-tick scenario: nothing anywhere near the
player. -/
def worldQuiet : World :=
  { playerPos := ⟨0, 5, 0⟩
    collectiblePos := ⟨100, 5, 100⟩
    obstacles := []
    lifeVisible := false
    lifePos := ⟨0, 5, 0⟩
    clearVisible := false
    clearPos := ⟨0, 5, 0⟩
    score := 0
    timeRemaining := 30
    lives := 3 }

theorem processObstacles_nil (push : Vec3 → Vec3) (pos : Vec3) (lives : ℤ) :
    processObstacles push [] pos lives = ⟨pos, [], lives, true⟩ := rfl

theorem processObstacles_nocollide (push : Vec3 → Vec3) {o : Obstacle} {pos : Vec3}
    (rest : List Obstacle) (lives : ℤ) (hc : checkCollision pos o.pos = false) :
    processObstacles push (o :: rest) pos lives =
      (let t := processObstacles push rest pos lives
       ⟨t.pos, o :: t.obstacles, t.lives, t.cont⟩) := by
  rw [processObstacles.eq_def]
  simp [hc]

theorem processObstacles_benign (push : Vec3 → Vec3) {o : Obstacle} {pos : Vec3}
    (rest : List Obstacle) (lives : ℤ) (hc : checkCollision pos o.pos = true)
    (hh : o.isHazard = false) :
    processObstacles push (o :: rest) pos lives =
      (let t := processObstacles push rest (resolvePush push pos o.pos) lives
       ⟨t.pos, o :: t.obstacles, t.lives, t.cont⟩) := by
  rw [processObstacles.eq_def]
  simp [hc, hh]

theorem processObstacles_dead (push : Vec3 → Vec3) {o : Obstacle} {pos : Vec3}
    (rest : List Obstacle) {lives : ℤ} (hc : checkCollision pos o.pos = true)
    (hh : o.isHazard = true) (hl : lives - 1 ≤ 0) :
    processObstacles push (o :: rest) pos lives = ⟨pos, o :: rest, lives - 1, false⟩ := by
  rw [processObstacles.eq_def]
  simp [hc, hh, hl]

theorem processObstacles_kill_last (push : Vec3 → Vec3) {o : Obstacle} {pos : Vec3}
    {lives : ℤ} (hc : checkCollision pos o.pos = true)
    (hh : o.isHazard = true) (hl : ¬lives - 1 ≤ 0) :
    processObstacles push [o] pos lives = ⟨pos, [], lives - 1, true⟩ := by
  rw [processObstacles.eq_def]
  simp [hc, hh, hl]

theorem processObstacles_kill_skip (push : Vec3 → Vec3) {o : Obstacle} {pos : Vec3}
    (r : Obstacle) (rest2 : List Obstacle) {lives : ℤ}
    (hc : checkCollision pos o.pos = true)
    (hh : o.isHazard = true) (hl : ¬lives - 1 ≤ 0) :
    processObstacles push (o :: r :: rest2) pos lives =
      (let t := processObstacles push rest2 pos (lives - 1)
       ⟨t.pos, r :: t.obstacles, t.lives, t.cont⟩) := by
  rw [processObstacles.eq_def]
  simp [hc, hh, hl]

theorem processObstacles_of_no_collision (push : Vec3 → Vec3) :
    ∀ (obs : List Obstacle) (pos : Vec3) (lives : ℤ),
    (∀ o ∈ obs, checkCollision pos o.pos = false) →
    processObstacles push obs pos lives = ⟨pos, obs, lives, true⟩ := by
  intro obs
  induction obs with
  | nil => intro pos lives _; rfl
  | cons o rest ih =>
    intro pos lives h
    have ho : checkCollision pos o.pos = false := h o (by simp)
    have hrest : ∀ o2 ∈ rest, checkCollision pos o2.pos = false :=
      fun o2 h2 => h o2 (by simp [h2])
    rw [processObstacles_nocollide push rest lives ho]
    simp [ih pos lives hrest]

theorem processObstacles_of_no_hazard (push : Vec3 → Vec3) :
    ∀ (obs : List Obstacle) (pos : Vec3) (lives : ℤ),
    (∀ o ∈ obs, o.isHazard = false) →
    processObstacles push obs pos lives =
      ⟨List.foldl (pushStep push) pos obs, obs, lives, true⟩ := by
  intro obs
  induction obs with
  | nil => intro pos lives _; rfl
  | cons o rest ih =>
    intro pos lives h
    have ho : o.isHazard = false := h o (by simp)
    have hrest : ∀ o2 ∈ rest, o2.isHazard = false := fun o2 h2 => h o2 (by simp [h2])
    by_cases hc : checkCollision pos o.pos = true
    · rw [processObstacles_benign push rest lives hc ho]
      simp [ih _ lives hrest, List.foldl_cons, pushStep, hc]
    · simp only [Bool.not_eq_true] at hc
      rw [processObstacles_nocollide push rest lives hc]
      simp [ih pos lives hrest, List.foldl_cons, pushStep, hc]

theorem processObstacles_lives_bounds (push : Vec3 → Vec3) :
    ∀ (obs : List Obstacle) (pos : Vec3) (lives : ℤ), 1 ≤ lives →
    (0 ≤ (processObstacles push obs pos lives).lives ∧
     (processObstacles push obs pos lives).lives ≤ lives ∧
     ((processObstacles push obs pos lives).cont = false →
       (processObstacles push obs pos lives).lives = 0) ∧
     ((processObstacles push obs pos lives).cont = true →
       1 ≤ (processObstacles push obs pos lives).lives)) := by
  intro obs pos lives
  induction obs, pos, lives using processObstacles.induct push with
  | case1 pos lives =>
    intro h1
    rw [processObstacles_nil]
    exact ⟨by dsimp only; omega, by dsimp only; omega, by simp, by dsimp only; intro _; omega⟩
  | case2 o rest pos lives hc hh hl =>
    intro h1
    rw [processObstacles_dead push rest hc hh hl]
    exact ⟨by dsimp only; omega, by dsimp only; omega, by dsimp only; intro _; omega, by simp⟩
  | case3 o pos lives hc hh hl =>
    intro h1
    rw [processObstacles_kill_last push hc hh hl]
    exact ⟨by dsimp only; omega, by dsimp only; omega, by simp, by dsimp only; intro _; omega⟩
  | case4 o pos lives hc hh hl r rest2 ih =>
    intro h1
    have ih2 := ih (by omega)
    rw [processObstacles_kill_skip push r rest2 hc hh hl]
    exact ⟨by simpa using ih2.1, by have := ih2.2.1; simp; omega,
      by have := ih2.2.2.1; simpa using this, by have := ih2.2.2.2; simpa using this⟩
  | case5 o rest pos lives hc hh pos2 ih =>
    intro h1
    have hh2 : o.isHazard = false := by simpa using hh
    have ih2 := ih h1
    rw [processObstacles_benign push rest lives hc hh2]
    exact ⟨by simpa using ih2.1, by have := ih2.2.1; simpa using this,
      by have := ih2.2.2.1; simpa using this, by have := ih2.2.2.2; simpa using this⟩
  | case6 o rest pos lives hc ih =>
    intro h1
    have hc2 : checkCollision pos o.pos = false := by simpa using hc
    have ih2 := ih h1
    rw [processObstacles_nocollide push rest lives hc2]
    exact ⟨by simpa using ih2.1, by have := ih2.2.1; simpa using this,
      by have := ih2.2.2.1; simpa using this, by have := ih2.2.2.2; simpa using this⟩

theorem isValidPosition_spec {p : Vec3} {obs : List Obstacle} {pp cp : Vec3} {m : ℚ}
    (h : isValidPosition p obs pp cp m = true) :
    (∀ o ∈ obs, intersectsBox (cubeBox p) (cubeBox o.pos) = false) ∧
    intersectsBox (cubeBox p) (cubeBox pp) = false ∧
    intersectsBox (cubeBox p) (cubeBox cp) = false := by
  unfold isValidPosition at h
  by_cases h1 : (decide (m ≤ |p.x|) || decide (m ≤ |p.z|)) = true
  · simp [h1] at h
  · rw [if_neg (by simpa using h1)] at h
    by_cases h2 : (obs.any fun o => intersectsBox (cubeBox p) (cubeBox o.pos)) = true
    · simp only [h2, if_true] at h
      exact absurd h (by simp)
    · rw [if_neg (by simpa using h2)] at h
      by_cases h3 : (intersectsBox (cubeBox p) (cubeBox pp) ||
          intersectsBox (cubeBox p) (cubeBox cp)) = true
      · simp only [h3, if_true] at h
        exact absurd h (by simp)
      · refine ⟨?_, ?_, ?_⟩
        · intro o ho
          by_contra hco
          exact h2 (List.any_eq_true.mpr ⟨o, ho, by simpa using hco⟩)
        · simpa using (Bool.or_eq_false_iff.mp (by simpa using h3)).1
        · simpa using (Bool.or_eq_false_iff.mp (by simpa using h3)).2

theorem findValidAux_spec (rand : ℕ → ℚ) (pp cp : Vec3) (obs : List Obstacle)
    (m : ℚ) : ∀ (fuel k : ℕ),
    (findValidAux rand pp cp obs m fuel k).2 ≤ k + 2 * fuel ∧
    ((findValidAux rand pp cp obs m fuel k).1 = none ∨
      ∃ p, (findValidAux rand pp cp obs m fuel k).1 = some p ∧
        isValidPosition p obs pp cp m = true) := by
  intro fuel
  induction fuel with
  | zero => intro k; simp [findValidAux]
  | succ n ih =>
    intro k
    by_cases hv : isValidPosition (sampleCandidate rand k m) obs pp cp m = true
    · have he : findValidAux rand pp cp obs m (n + 1) k =
          (some (sampleCandidate rand k m), k + 2) := by
        simp [findValidAux, hv]
      rw [he]
      exact ⟨by omega, Or.inr ⟨sampleCandidate rand k m, rfl, hv⟩⟩
    · have he : findValidAux rand pp cp obs m (n + 1) k =
          findValidAux rand pp cp obs m n (k + 2) := by
        simp [findValidAux, hv]
      rw [he]
      exact ⟨by have := (ih (k + 2)).1; omega, (ih (k + 2)).2⟩

theorem findValidObstaclePosition_spec (rand : ℕ → ℚ) (pp cp : Vec3)
    (obs : List Obstacle) (m : ℚ) (k : ℕ) :
    (findValidObstaclePosition rand pp cp obs m k).2 ≤ k + 200 ∧
    ((findValidObstaclePosition rand pp cp obs m k).1 = none ∨
      ∃ p, (findValidObstaclePosition rand pp cp obs m k).1 = some p ∧
        isValidPosition p obs pp cp m = true) :=
  findValidAux_spec rand pp cp obs m 100 k

/-- C4: movement resolution is all-or-nothing: if the player box offset by
the full velocity intersects some wall, the position is unchanged (no
axis-sliding); otherwise the position becomes exactly `position + velocity`,
and the collision flag is exactly the existence of an intersected wall. -/
theorem C4_wall_blocking (pos v : Vec3) :
    ((applyMovement pos v).2 = true ↔
      ∃ wb ∈ walls,
        intersectsBox ⟨(cubeBox pos).min + v, (cubeBox pos).max + v⟩ wb = true) ∧
    ((applyMovement pos v).2 = true → (applyMovement pos v).1 = pos) ∧
    ((applyMovement pos v).2 = false → (applyMovement pos v).1 = pos + v) := by
  unfold applyMovement
  refine ⟨by simp [List.any_eq_true], ?_, ?_⟩
  · intro h
    simp only at h
    simp [h]
  · intro h
    simp only at h
    simp [h]

/-- Witness for C4 at concrete inputs: from the origin a velocity of 4 along
+z is committed exactly, while from z = 190 a velocity of 5 along +z reaches
the +z wall and is rejected in full. -/
theorem C4_wall_blocking_witness :
    (applyMovement ⟨0, 5, 0⟩ ⟨0, 0, 4⟩).1 = (⟨0, 5, 0⟩ : Vec3) + ⟨0, 0, 4⟩ ∧
    (applyMovement ⟨0, 5, 190⟩ ⟨0, 0, 5⟩).1 = ⟨0, 5, 190⟩ :=
  ⟨(C4_wall_blocking ⟨0, 5, 0⟩ ⟨0, 0, 4⟩).2.2
      (by norm_num [applyMovement, cubeBox, intersectsBox, walls, List.any]),
   (C4_wall_blocking ⟨0, 5, 190⟩ ⟨0, 0, 5⟩).2.1
      (by norm_num [applyMovement, cubeBox, intersectsBox, walls, List.any])⟩

/-- C5: benign-obstacle push-back is wall-safe: for any push map (in
particular the real normalize-and-scale-by-2 map) and any player position
not intersecting a wall, the resolved position still intersects no wall;
a pushed position that would hit a wall is discarded (position unchanged)
and one that would not is committed. -/
theorem C5_push_back_wall_safety (push : Vec3 → Vec3) (pos obstaclePos : Vec3)
    (h : checkWallCollisionAt pos = false) :
    checkWallCollisionAt (resolvePush push pos obstaclePos) = false ∧
    (checkWallCollisionAt (pos + push (pos - obstaclePos)) = true →
      resolvePush push pos obstaclePos = pos) ∧
    (checkWallCollisionAt (pos + push (pos - obstaclePos)) = false →
      resolvePush push pos obstaclePos = pos + push (pos - obstaclePos)) := by
  unfold resolvePush
  by_cases hw : checkWallCollisionAt (pos + push (pos - obstaclePos)) = true
  · simp [hw, h]
  · simp only [Bool.not_eq_true] at hw
    simp [hw]

/-- Witness for C5: at the origin with an obstacle at (6, 5, 0) and the real
push value (-2, 0, 0), the push is wall-free and committed. -/
theorem C5_push_back_wall_safety_witness :
    checkWallCollisionAt (resolvePush pushMinus2X ⟨0, 5, 0⟩ ⟨6, 5, 0⟩) = false ∧
    resolvePush pushMinus2X ⟨0, 5, 0⟩ ⟨6, 5, 0⟩ =
      (⟨0, 5, 0⟩ : Vec3) + pushMinus2X ((⟨0, 5, 0⟩ : Vec3) - ⟨6, 5, 0⟩) :=
  ⟨(C5_push_back_wall_safety pushMinus2X ⟨0, 5, 0⟩ ⟨6, 5, 0⟩
      (by norm_num [checkWallCollisionAt, cubeBox, intersectsBox, walls, List.any])).1,
   (C5_push_back_wall_safety pushMinus2X ⟨0, 5, 0⟩ ⟨6, 5, 0⟩
      (by norm_num [checkWallCollisionAt, cubeBox, intersectsBox, walls, List.any])).2.2
      (by norm_num [checkWallCollisionAt, cubeBox, intersectsBox, walls, List.any,
        pushMinus2X])⟩

/-- C7: the placement search always terminates within its 100-attempt budget
(consuming at most 200 random draws) and either fails with `none` or returns
a position whose standard probe box intersects no obstacle in the forbidden
set, nor the player, nor the collectible. -/
theorem C7_placement_bounded_and_valid (rand : ℕ → ℚ) (playerPos collectiblePos : Vec3)
    (obstacles : List Obstacle) (mazeSize : ℚ) (k : ℕ) :
    (findValidObstaclePosition rand playerPos collectiblePos obstacles mazeSize k).2 ≤
      k + 200 ∧
    ((findValidObstaclePosition rand playerPos collectiblePos obstacles mazeSize k).1 =
      none ∨
      ∃ p, (findValidObstaclePosition rand playerPos collectiblePos obstacles
          mazeSize k).1 = some p ∧
        (∀ o ∈ obstacles, intersectsBox (cubeBox p) (cubeBox o.pos) = false) ∧
        intersectsBox (cubeBox p) (cubeBox playerPos) = false ∧
        intersectsBox (cubeBox p) (cubeBox collectiblePos) = false) := by
  have h := findValidObstaclePosition_spec rand playerPos collectiblePos obstacles mazeSize k
  refine ⟨h.1, ?_⟩
  rcases h.2 with hn | ⟨p, hp, hv⟩
  · exact Or.inl hn
  · exact Or.inr ⟨p, hp, isValidPosition_spec hv⟩

/-- C8: the sampled positions are NOT on a 10-unit grid: the code floors the
whole product and then divides and re-multiplies by 10, a no-op on the
integer, so with random draw 0.51 both the placement sampler and
`repositionObject` produce x = z = 3, which is not a multiple of 10. -/
theorem C8_sample_not_on_grid :
    gridSample 195 (51/100) = 3 ∧
    sampleCandidate randFiftyOne 0 200 = ⟨3, 5, 3⟩ ∧
    (repositionObject randFiftyOne 0 200).1 = ⟨3, 5, 3⟩ ∧
    ¬((10 : ℤ) ∣ 3) := by
  refine ⟨?_, ?_, ?_, by omega⟩ <;>
    norm_num [gridSample, sampleCandidate, repositionObject, clampAxis,
      randFiftyOne, min_def, max_def]

/-- C1: the difficulty increment does not persist.  In a run in which the
player picks up the collectible on the first tick (score reaches 1, and the
local `difficulty` variable inside `update` reaches 1), the session-stored
difficulty is still 0 after that tick and after the next, so the next tick's
speed is `2 + 0 * 0.5 = 2`, not `2.5`. -/
theorem C1_difficulty_increment_lost :
    (runSession pushZero coneHalfX randPickupOnce keysIdle 1).1.score = 1 ∧
    (update pushZero coneHalfX randPickupOnce 200 Keys.none
      (initialWorld randPickupOnce) 0 2).difficulty = 1 ∧
    (runSession pushZero coneHalfX randPickupOnce keysIdle 1).2.1 = 0 ∧
    (runSession pushZero coneHalfX randPickupOnce keysIdle 2).2.1 = 0 ∧
    (runSession pushZero coneHalfX randPickupOnce keysIdle 2).1.score = 1 := by
  refine ⟨?_, ?_, ?_, ?_, ?_⟩ <;>
    norm_num [update, updateTail, resolvedPos, applyMovement, velocityOf, Keys.none, cubeBox,
      coneBox, intersectsBox, checkCollision, checkWallCollisionAt, walls,
      pickupBlock, lifePhase, clearPhase, hazardOrLifeSpawn, clearSpawn,
      repositionObject, gridSample, clampAxis, sampleCandidate, isValidPosition,
      resolvePush, processObstacles.eq_def, runSession, initialWorld, keysIdle,
      randHalf, randPickupOnce, pushZero, pushMinus2X, coneHalfX, worldSkip,
      hazardAtOrigin, benignAtSix, List.any, min_def, max_def]

/-- Counterexample to C2 as stated: with one life left and a hazard on the
player, the step returns `continueSession = false` but the hazard is NOT
removed from the obstacle list (the early return precedes the splice). -/
theorem C2_counterexample_fatal_hazard_kept :
    (update pushZero coneHalfX randHalf 200 Keys.none worldFatalHazard 0 0).cont =
      false ∧
    (update pushZero coneHalfX randHalf 200 Keys.none worldFatalHazard 0 0).world.obstacles =
      [hazardAtOrigin] ∧
    (update pushZero coneHalfX randHalf 200 Keys.none worldFatalHazard 0 0).world.lives = 0 ∧
    checkCollision worldFatalHazard.playerPos hazardAtOrigin.pos = true ∧
    hazardAtOrigin.isHazard = true := by
  refine ⟨?_, ?_, ?_, ?_, ?_⟩ <;>
    norm_num [update, updateTail, resolvedPos, applyMovement, velocityOf, Keys.none, cubeBox,
      coneBox, intersectsBox, checkCollision, checkWallCollisionAt, walls,
      pickupBlock, lifePhase, clearPhase, hazardOrLifeSpawn, clearSpawn,
      repositionObject, gridSample, clampAxis, sampleCandidate, isValidPosition,
      resolvePush, processObstacles.eq_def, randHalf, pushZero, coneHalfX,
      worldFatalHazard, hazardAtOrigin, List.any, min_def, max_def]

/-- Counterexample to C3 as stated: with three lives, a hazard on the player
followed by an overlapping benign obstacle, the tick removes the hazard but
skips the benign obstacle entirely (splice-during-iteration): the final
player position is unchanged and still overlaps it, although the push
resolution was wall-free and would have moved the player to (-2, 5, 0). -/
theorem C3_counterexample_skipped_obstacle :
    (update pushMinus2X coneHalfX randHalf 200 Keys.none worldSkip 0 0).world.playerPos =
      ⟨0, 5, 0⟩ ∧
    (update pushMinus2X coneHalfX randHalf 200 Keys.none worldSkip 0 0).world.obstacles =
      [benignAtSix] ∧
    (update pushMinus2X coneHalfX randHalf 200 Keys.none worldSkip 0 0).cont = true ∧
    checkCollision (⟨0, 5, 0⟩ : Vec3) benignAtSix.pos = true ∧
    resolvePush pushMinus2X ⟨0, 5, 0⟩ benignAtSix.pos = ⟨-2, 5, 0⟩ ∧
    ((⟨-2, 5, 0⟩ : Vec3) ≠ ⟨0, 5, 0⟩) := by
  refine ⟨?_, ?_, ?_, ?_, ?_, ?_⟩ <;>
    norm_num [update, updateTail, resolvedPos, applyMovement, velocityOf, Keys.none, cubeBox,
      coneBox, intersectsBox, checkCollision, checkWallCollisionAt, walls,
      pickupBlock, lifePhase, clearPhase, hazardOrLifeSpawn, clearSpawn,
      repositionObject, gridSample, clampAxis, sampleCandidate, isValidPosition,
      resolvePush, processObstacles.eq_def, runSession, initialWorld, keysIdle,
      randHalf, randPickupOnce, pushZero, pushMinus2X, coneHalfX, worldSkip,
      hazardAtOrigin, benignAtSix, List.any, min_def, max_def, Vec3.add_def,
      Vec3.mk.injEq]

/-- Counterexample to C9 as stated: with the constant random stream 1/2 the
collectible pickup respawns the collectible at the origin — overlapping the
player and equal to its pre-pickup position — so the respawned location is
neither new nor non-overlapping. -/
theorem C9_counterexample_respawn_overlap :
    (runSession pushZero coneHalfX randHalf keysIdle 1).1.score = 1 ∧
    (runSession pushZero coneHalfX randHalf keysIdle 1).1.collectiblePos = ⟨0, 5, 0⟩ ∧
    (runSession pushZero coneHalfX randHalf keysIdle 1).1.collectiblePos =
      (initialWorld randHalf).collectiblePos ∧
    checkCollision (runSession pushZero coneHalfX randHalf keysIdle 1).1.playerPos
      (runSession pushZero coneHalfX randHalf keysIdle 1).1.collectiblePos = true := by
  refine ⟨?_, ?_, ?_, ?_⟩ <;>
    norm_num [update, updateTail, resolvedPos, applyMovement, velocityOf, Keys.none, cubeBox,
      coneBox, intersectsBox, checkCollision, checkWallCollisionAt, walls,
      pickupBlock, lifePhase, clearPhase, hazardOrLifeSpawn, clearSpawn,
      repositionObject, gridSample, clampAxis, sampleCandidate, isValidPosition,
      resolvePush, processObstacles.eq_def, runSession, initialWorld, keysIdle,
      randHalf, randPickupOnce, pushZero, pushMinus2X, coneHalfX, worldSkip,
      hazardAtOrigin, benignAtSix, List.any, min_def, max_def]

/-- C3 amended: on a tick whose ObstacleSet contains no hazard (so no
splice/removal can occur), the obstacle loop applies the interaction handling
to every obstacle in order — each intersecting obstacle receives the
push-back resolution at the player's evolving position — removes nothing,
leaves lives unchanged and continues. -/
theorem C3_all_handled_without_hazard_removal (push : Vec3 → Vec3)
    (obs : List Obstacle) (pos : Vec3) (lives : ℤ)
    (h : ∀ o ∈ obs, o.isHazard = false) :
    processObstacles push obs pos lives =
      ⟨List.foldl (pushStep push) pos obs, obs, lives, true⟩ :=
  processObstacles_of_no_hazard push obs pos lives h

/-- Witness for the amended C3 at a concrete benign obstacle overlapping the
player. -/
theorem C3_all_handled_without_hazard_removal_witness :
    processObstacles pushMinus2X [benignAtSix] ⟨0, 5, 0⟩ 3 =
      ⟨List.foldl (pushStep pushMinus2X) ⟨0, 5, 0⟩ [benignAtSix], [benignAtSix], 3, true⟩ :=
  C3_all_handled_without_hazard_removal pushMinus2X [benignAtSix] ⟨0, 5, 0⟩ 3
    (by intro o ho; simp at ho; simp [ho, benignAtSix])

/-- C2 amended: when the obstacle loop reaches an intersecting hazard (no
earlier obstacle in the list intersects the player), lives drops by exactly
one; if that brings lives to zero the loop stops at once with
`continue = false`, the player position unchanged and the hazard still in
the list (the early return precedes the splice); otherwise the hazard is
removed and iteration resumes after the element that shifted into its index
(which is carried over unprocessed). -/
theorem C2_hazard_hit_amended (push : Vec3 → Vec3) (pre : List Obstacle)
    (o : Obstacle) (rest : List Obstacle) (pos : Vec3) (lives : ℤ)
    (hpre : ∀ p ∈ pre, checkCollision pos p.pos = false)
    (hc : checkCollision pos o.pos = true) (hh : o.isHazard = true) :
    (lives - 1 ≤ 0 →
      processObstacles push (pre ++ o :: rest) pos lives =
        ⟨pos, pre ++ o :: rest, lives - 1, false⟩) ∧
    (0 < lives - 1 →
      processObstacles push (pre ++ o :: rest) pos lives =
        match rest with
        | [] => ⟨pos, pre, lives - 1, true⟩
        | r :: rest2 =>
          let t := processObstacles push rest2 pos (lives - 1)
          ⟨t.pos, pre ++ r :: t.obstacles, t.lives, t.cont⟩) := by
  revert hpre
  induction pre with
  | nil =>
    intro _
    refine ⟨fun hl => by simpa using processObstacles_dead push rest hc hh hl, fun hl => ?_⟩
    cases rest with
    | nil => simpa using processObstacles_kill_last push hc hh (by omega)
    | cons r rest2 => simpa using processObstacles_kill_skip push r rest2 hc hh (by omega)
  | cons p pre2 ih =>
    intro hpre
    have hp : checkCollision pos p.pos = false := hpre p (by simp)
    have ih2 := ih (fun q hq => hpre q (by simp [hq]))
    constructor
    · intro hl
      rw [List.cons_append, processObstacles_nocollide push _ lives hp]
      simp [ih2.1 hl]
    · intro hl
      rw [List.cons_append, processObstacles_nocollide push _ lives hp]
      cases rest with
      | nil => simp [ih2.2 hl]
      | cons r rest2 => simp [ih2.2 hl]

/-- Witness for the amended C2: a single hazard on the player with one life
left: lives reaches 0, the loop reports game over and the hazard is not
removed. -/
theorem C2_hazard_hit_amended_witness :
    processObstacles pushZero [hazardAtOrigin] ⟨0, 5, 0⟩ 1 =
      ⟨⟨0, 5, 0⟩, [hazardAtOrigin], 0, false⟩ :=
  (C2_hazard_hit_amended pushZero [] hazardAtOrigin [] ⟨0, 5, 0⟩ 1
    (by simp)
    (by norm_num [checkCollision, cubeBox, intersectsBox, hazardAtOrigin])
    (by simp [hazardAtOrigin])).1 (by omega)

/-- The life-triangle phase is the identity when the pickup is hidden or not
in contact. -/
theorem lifePhase_no_contact (cHx : ℚ) (st : World)
    (h : st.lifeVisible = true →
      intersectsBox (cubeBox st.playerPos) (coneBox cHx st.lifePos) = false) :
    lifePhase cHx st = st := by
  unfold lifePhase
  cases hv : st.lifeVisible
  · simp
  · simp [h hv]

/-- The clear-all phase is the identity when the pickup is hidden or not in
contact. -/
theorem clearPhase_no_contact (cHx : ℚ) (st : World)
    (h : st.clearVisible = true →
      intersectsBox (cubeBox st.playerPos) (coneBox cHx st.clearPos) = false) :
    clearPhase cHx st = st := by
  unfold clearPhase
  cases hv : st.clearVisible
  · simp
  · simp [h hv]

/-- The life-triangle phase never touches score, obstacles, collectible,
player position, time, or the clear-all state. -/
theorem lifePhase_effects (cHx : ℚ) (st : World) :
    (lifePhase cHx st).score = st.score ∧
    (lifePhase cHx st).obstacles = st.obstacles ∧
    (lifePhase cHx st).collectiblePos = st.collectiblePos ∧
    (lifePhase cHx st).playerPos = st.playerPos ∧
    (lifePhase cHx st).timeRemaining = st.timeRemaining ∧
    (lifePhase cHx st).clearVisible = st.clearVisible ∧
    (lifePhase cHx st).clearPos = st.clearPos := by
  unfold lifePhase
  split
  · split <;> simp
  · simp

/-- C10: on a tick in which the resolved player position intersects neither
the collectible, nor a visible life or clear-all pickup, nor any obstacle,
the step changes only the player position (per movement resolution and
ground pin) and the timer, which drops by exactly 1/60; score, lives, the
local difficulty, the random index, the ObstacleSet, and every other entity's
position and visibility are unchanged, and the continue signal is exactly
`timeRemaining - 1/60 > 0 && lives > 0`. -/
theorem C10_quiet_tick (push : Vec3 → Vec3) (cHx : ℚ) (rand : ℕ → ℚ)
    (mazeSize : ℚ) (keys : Keys) (st : World) (d : ℚ) (k : ℕ)
    (hcol : checkCollision (resolvedPos keys st d) st.collectiblePos = false)
    (hlife : st.lifeVisible = true →
      intersectsBox (cubeBox (resolvedPos keys st d)) (coneBox cHx st.lifePos) = false)
    (hclear : st.clearVisible = true →
      intersectsBox (cubeBox (resolvedPos keys st d)) (coneBox cHx st.clearPos) = false)
    (hobs : ∀ o ∈ st.obstacles, checkCollision (resolvedPos keys st d) o.pos = false) :
    update push cHx rand mazeSize keys st d k =
      ⟨{ st with
          playerPos := resolvedPos keys st d
          timeRemaining := st.timeRemaining - 1/60 }, d, k,
        decide (0 < st.timeRemaining - 1/60) && decide (0 < st.lives)⟩ := by
  have h0 : lifePhase cHx { st with playerPos := resolvedPos keys st d } =
      { st with playerPos := resolvedPos keys st d } :=
    lifePhase_no_contact cHx _ hlife
  have h1 : clearPhase cHx { st with playerPos := resolvedPos keys st d } =
      { st with playerPos := resolvedPos keys st d } :=
    clearPhase_no_contact cHx _ hclear
  have h2 : processObstacles push st.obstacles (resolvedPos keys st d) st.lives =
      ⟨resolvedPos keys st d, st.obstacles, st.lives, true⟩ :=
    processObstacles_of_no_collision push st.obstacles (resolvedPos keys st d) st.lives hobs
  unfold update updateTail
  simp only [hcol, Bool.false_eq_true, if_false, h0, h1, h2]
  simp

/-- Witness for C10 at the quiet concrete state: only the player position
(unchanged here, as no key is held) and the timer move. -/
theorem C10_quiet_tick_witness :
    update pushZero coneHalfX randHalf 200 Keys.none worldQuiet 0 0 =
      ⟨{ worldQuiet with
          playerPos := resolvedPos Keys.none worldQuiet 0
          timeRemaining := worldQuiet.timeRemaining - 1/60 }, 0, 0,
        decide (0 < worldQuiet.timeRemaining - 1/60) && decide (0 < worldQuiet.lives)⟩ :=
  C10_quiet_tick pushZero coneHalfX randHalf 200 Keys.none worldQuiet 0 0
    (by norm_num [resolvedPos, applyMovement, velocityOf, Keys.none, checkCollision,
      cubeBox, intersectsBox, walls, List.any, worldQuiet])
    (by simp [worldQuiet])
    (by simp [worldQuiet])
    (by simp [worldQuiet])

theorem intersectsBox_comm (a b : Box) : intersectsBox a b = intersectsBox b a := by
  unfold intersectsBox
  simp only [Bool.or_comm, Bool.or_left_comm, Bool.or_assoc]

theorem checkCollision_comm (p q : Vec3) : checkCollision p q = checkCollision q p := by
  unfold checkCollision
  exact intersectsBox_comm _ _

theorem checkCollision_far_above (p q : Vec3) (hp : p.y = 5) (hq : q.y = 1000) :
    checkCollision p q = false := by
  simp only [checkCollision, cubeBox, intersectsBox, hp, hq]
  norm_num

theorem resolvedPos_y (keys : Keys) (st : World) (d : ℚ) :
    (resolvedPos keys st d).y = 5 := rfl

theorem hazardOrLifeSpawn_obstacles (rand : ℕ → ℚ) (mazeSize : ℚ) (pp cp : Vec3)
    (obs : List Obstacle) (lv : Bool) (lp : Vec3) (k : ℕ) :
    ∃ hs, (hazardOrLifeSpawn rand mazeSize pp cp obs lv lp k).obstacles = obs ++ hs ∧
      (hs = [] ∨ ∃ p, hs = [⟨p, true⟩] ∧
        intersectsBox (cubeBox p) (cubeBox pp) = false ∧
        (∀ o ∈ obs, intersectsBox (cubeBox p) (cubeBox o.pos) = false)) := by
  unfold hazardOrLifeSpawn
  by_cases h1 : rand k < 4/10
  · simp only [h1, decide_True, if_true]
    cases hf : (findValidObstaclePosition rand pp cp obs mazeSize (k + 1)).1 with
    | none => exact ⟨[], by simp [hf], Or.inl rfl⟩
    | some p =>
      have hspec := (findValidObstaclePosition_spec rand pp cp obs mazeSize (k + 1)).2
      rcases hspec with hn | ⟨q, hq, hval⟩
      · rw [hf] at hn; exact absurd hn (by simp)
      · rw [hf] at hq
        obtain rfl : p = q := by injection hq
        have hv := isValidPosition_spec hval
        exact ⟨[⟨p, true⟩], by simp [hf], Or.inr ⟨p, rfl, hv.2.1, hv.1⟩⟩
  · simp only [h1, decide_False, Bool.false_eq_true, if_false]
    by_cases h2 : rand (k + 1) < 2/10
    · simp only [h2, decide_True, if_true]
      cases hf : (findValidObstaclePosition rand pp cp obs mazeSize (k + 2)).1 with
      | none => exact ⟨[], by simp [hf], Or.inl rfl⟩
      | some p => exact ⟨[], by simp [hf], Or.inl rfl⟩
    · simp only [h2, decide_False, Bool.false_eq_true, if_false]
      exact ⟨[], by simp, Or.inl rfl⟩

theorem pickupBlock_proj (rand : ℕ → ℚ) (mazeSize : ℚ) (st : World) (d : ℚ) (k : ℕ) :
    (pickupBlock rand mazeSize st d k).1.score = st.score + 1 ∧
    (pickupBlock rand mazeSize st d k).1.collectiblePos =
      (repositionObject rand k mazeSize).1 ∧
    (pickupBlock rand mazeSize st d k).1.playerPos = st.playerPos ∧
    (pickupBlock rand mazeSize st d k).1.lives = st.lives ∧
    (pickupBlock rand mazeSize st d k).1.timeRemaining =
      min (st.timeRemaining + max (3 - d * (2/10)) (1/2)) 60 ∧
    (pickupBlock rand mazeSize st d k).2.1 = d + 1 := by
  unfold pickupBlock
  simp

theorem pickupBlock_clear (rand : ℕ → ℚ) (mazeSize : ℚ) (st : World) (d : ℚ) (k : ℕ)
    (h : st.score = 0) :
    (pickupBlock rand mazeSize st d k).1.clearVisible = st.clearVisible ∧
    (pickupBlock rand mazeSize st d k).1.clearPos = st.clearPos := by
  unfold pickupBlock clearSpawn
  simp [h]

theorem pickupBlock_obstacles (rand : ℕ → ℚ) (mazeSize : ℚ) (st : World) (d : ℚ)
    (k : ℕ) :
    ∃ hs, (hs = [] ∨ ∃ p, hs = [⟨p, true⟩] ∧
        intersectsBox (cubeBox p) (cubeBox st.playerPos) = false) ∧
      (pickupBlock rand mazeSize st d k).1.obstacles =
        st.obstacles ++ ⟨⟨st.collectiblePos.x, 1000, st.collectiblePos.z⟩, false⟩ :: hs := by
  obtain ⟨hs, heq, hcase⟩ := hazardOrLifeSpawn_obstacles rand mazeSize st.playerPos
    (repositionObject rand k mazeSize).1
    (st.obstacles ++ [⟨⟨st.collectiblePos.x, 1000, st.collectiblePos.z⟩, false⟩])
    st.lifeVisible st.lifePos (repositionObject rand k mazeSize).2
  refine ⟨hs, ?_, ?_⟩
  · rcases hcase with h | ⟨p, hp, hv, _⟩
    · exact Or.inl h
    · exact Or.inr ⟨p, hp, hv⟩
  · unfold pickupBlock
    simp only [heq]
    simp

/-- C9 amended: on a tick in which the resolved player position intersects
the collectible, with `score = 0` and `difficulty = 0` (and no obstacle on
the player and no clear-all contact): score becomes 1, the collectible is
repositioned to exactly the output of `repositionObject` (no non-overlap
guarantee), and the ObstacleSet gains exactly one new falling (non-hazard)
obstacle at the collectible's pre-respawn ground position with `y = 1000`,
plus possibly one spawned hazard. -/
theorem C9_pickup_effects_amended (push : Vec3 → Vec3) (cHx : ℚ) (rand : ℕ → ℚ)
    (mazeSize : ℚ) (keys : Keys) (st : World) (k : ℕ)
    (hpick : checkCollision (resolvedPos keys st 0) st.collectiblePos = true)
    (hscore : st.score = 0)
    (hobs : ∀ o ∈ st.obstacles, checkCollision (resolvedPos keys st 0) o.pos = false)
    (hclear : st.clearVisible = true →
      intersectsBox (cubeBox (resolvedPos keys st 0)) (coneBox cHx st.clearPos) = false) :
    (update push cHx rand mazeSize keys st 0 k).world.score = 1 ∧
    (update push cHx rand mazeSize keys st 0 k).world.collectiblePos =
      (repositionObject rand k mazeSize).1 ∧
    ∃ hs, (hs = [] ∨ ∃ p, hs = [⟨p, true⟩]) ∧
      (update push cHx rand mazeSize keys st 0 k).world.obstacles =
        st.obstacles ++ ⟨⟨st.collectiblePos.x, 1000, st.collectiblePos.z⟩, false⟩ :: hs := by
  obtain ⟨hs, hcase, hobseq⟩ :=
    pickupBlock_obstacles rand mazeSize { st with playerPos := resolvedPos keys st 0 } 0 k
  have hproj :=
    pickupBlock_proj rand mazeSize { st with playerPos := resolvedPos keys st 0 } 0 k
  have hcl :=
    pickupBlock_clear rand mazeSize { st with playerPos := resolvedPos keys st 0 } 0 k
      (by simpa using hscore)
  have hle :=
    lifePhase_effects cHx (pickupBlock rand mazeSize
      { st with playerPos := resolvedPos keys st 0 } 0 k).1
  have hcp : clearPhase cHx (lifePhase cHx (pickupBlock rand mazeSize
      { st with playerPos := resolvedPos keys st 0 } 0 k).1) =
      lifePhase cHx (pickupBlock rand mazeSize
      { st with playerPos := resolvedPos keys st 0 } 0 k).1 := by
    apply clearPhase_no_contact
    intro hv
    rw [hle.2.2.2.1, hle.2.2.2.2.2.2]
    rw [hle.2.2.2.2.2.1] at hv
    rw [hcl.1] at hv
    rw [hproj.2.2.1, hcl.2]
    exact hclear (by simpa using hv)
  have hnc : ∀ o ∈ (lifePhase cHx (pickupBlock rand mazeSize
      { st with playerPos := resolvedPos keys st 0 } 0 k).1).obstacles,
      checkCollision (lifePhase cHx (pickupBlock rand mazeSize
      { st with playerPos := resolvedPos keys st 0 } 0 k).1).playerPos o.pos = false := by
    intro o ho
    rw [hle.2.1, hobseq] at ho
    rw [hle.2.2.2.1, hproj.2.2.1]
    simp only [List.mem_append, List.mem_cons] at ho
    rcases ho with ho | ho | ho
    · exact hobs o ho
    · subst ho
      exact checkCollision_far_above _ _ (resolvedPos_y keys st 0) rfl
    · rcases hcase with hnil | ⟨p, hp, hv⟩
      · subst hnil; simp at ho
      · subst hp
        simp at ho
        subst ho
        rw [checkCollision_comm]
        unfold checkCollision
        simpa using hv
  have hloop := processObstacles_of_no_collision push _ _
    (lifePhase cHx (pickupBlock rand mazeSize
      { st with playerPos := resolvedPos keys st 0 } 0 k).1).lives hnc
  have hcc : checkCollision ({ st with playerPos := resolvedPos keys st 0 }).playerPos
      ({ st with playerPos := resolvedPos keys st 0 }).collectiblePos = true := by
    simpa using hpick
  unfold update updateTail
  simp only [hcc, if_true, hcp, hloop, Bool.true_eq_false, if_false]
  refine ⟨?_, ?_, hs, hcase.imp id (fun h => h.imp fun p hp => hp.1), ?_⟩
  · rw [hle.1, hproj.1]
    simp [hscore]
  · rw [hle.2.2.1, hproj.2.1]
  · rw [hle.2.1, hobseq]

/-- Witness for the amended C9: the first tick of the constant-1/2 session
(collectible on the player, score 0, difficulty 0, empty ObstacleSet). -/
theorem C9_pickup_effects_amended_witness :
    (update pushZero coneHalfX randHalf 200 Keys.none (initialWorld randHalf) 0 2).world.score = 1 ∧
    (update pushZero coneHalfX randHalf 200 Keys.none (initialWorld randHalf) 0 2).world.collectiblePos =
      (repositionObject randHalf 2 200).1 ∧
    ∃ hs, (hs = [] ∨ ∃ p, hs = [⟨p, true⟩]) ∧
      (update pushZero coneHalfX randHalf 200 Keys.none (initialWorld randHalf) 0 2).world.obstacles =
        (initialWorld randHalf).obstacles ++
          ⟨⟨(initialWorld randHalf).collectiblePos.x, 1000,
            (initialWorld randHalf).collectiblePos.z⟩, false⟩ :: hs :=
  C9_pickup_effects_amended pushZero coneHalfX randHalf 200 Keys.none
    (initialWorld randHalf) 2
    (by norm_num [resolvedPos, applyMovement, velocityOf, Keys.none, checkCollision,
      cubeBox, intersectsBox, walls, List.any, initialWorld, repositionObject,
      gridSample, clampAxis, randHalf, min_def, max_def])
    (by simp [initialWorld])
    (by simp [initialWorld])
    (by simp [initialWorld])

theorem lifePhase_lives_bounds (cHx : ℚ) (st : World) (h0 : 1 ≤ st.lives)
    (h1 : st.lives ≤ 4) :
    1 ≤ (lifePhase cHx st).lives ∧ (lifePhase cHx st).lives ≤ 4 := by
  unfold lifePhase
  split
  · split
    · rename_i h
      constructor <;> simp <;> omega
    · exact ⟨h0, h1⟩
  · exact ⟨h0, h1⟩

theorem clearPhase_keeps (cHx : ℚ) (st : World) :
    (clearPhase cHx st).lives = st.lives ∧
    (clearPhase cHx st).timeRemaining = st.timeRemaining := by
  unfold clearPhase
  split <;> simp

theorem bonus_time_facts (t : ℚ) (h0 : 0 < t) (h1 : t ≤ 60)
    (hl : ∃ m : ℤ, t = m / 60) :
    0 < min (t + max (3 - 0 * (2/10)) (1/2)) 60 ∧
    min (t + max (3 - 0 * (2/10)) (1/2)) 60 ≤ 60 ∧
    (∃ m : ℤ, min (t + max (3 - 0 * (2/10)) (1/2)) 60 = m / 60) := by
  have hb : max (3 - 0 * (2/10)) (1/2) = (3 : ℚ) := by norm_num
  rw [hb]
  refine ⟨lt_min (by linarith) (by norm_num), min_le_right _ _, ?_⟩
  rcases hl with ⟨m, rfl⟩
  rcases le_total ((m : ℚ) / 60 + 3) 60 with h | h
  · rw [min_eq_left h]
    exact ⟨m + 180, by push_cast; ring⟩
  · rw [min_eq_right h]
    exact ⟨3600, by norm_num⟩

theorem updateTail_bounds (push : Vec3 → Vec3) (cHx : ℚ) (w : World) (d1 : ℚ)
    (k1 : ℕ) (ht0 : 0 < w.timeRemaining) (ht1 : w.timeRemaining ≤ 60)
    (htl : ∃ m : ℤ, w.timeRemaining = m / 60)
    (hl0 : 1 ≤ w.lives) (hl1 : w.lives ≤ 4) :
    0 ≤ (updateTail push cHx w d1 k1).world.timeRemaining ∧
    (updateTail push cHx w d1 k1).world.timeRemaining ≤ 60 ∧
    (∃ m : ℤ, (updateTail push cHx w d1 k1).world.timeRemaining = m / 60) ∧
    0 ≤ (updateTail push cHx w d1 k1).world.lives ∧
    (updateTail push cHx w d1 k1).world.lives ≤ 4 ∧
    ((updateTail push cHx w d1 k1).cont = true →
      0 < (updateTail push cHx w d1 k1).world.timeRemaining ∧
      1 ≤ (updateTail push cHx w d1 k1).world.lives) := by
  have hlife := lifePhase_lives_bounds cHx w hl0 hl1
  have htime := (lifePhase_effects cHx w).2.2.2.2.1
  have hck := clearPhase_keeps cHx (lifePhase cHx w)
  have hst3l0 : 1 ≤ (clearPhase cHx (lifePhase cHx w)).lives := by
    rw [hck.1]; exact hlife.1
  have hst3l1 : (clearPhase cHx (lifePhase cHx w)).lives ≤ 4 := by
    rw [hck.1]; exact hlife.2
  have hst3t : (clearPhase cHx (lifePhase cHx w)).timeRemaining = w.timeRemaining := by
    rw [hck.2, htime]
  have hloop := processObstacles_lives_bounds push
    (clearPhase cHx (lifePhase cHx w)).obstacles
    (clearPhase cHx (lifePhase cHx w)).playerPos
    (clearPhase cHx (lifePhase cHx w)).lives hst3l0
  rcases htl with ⟨m, hm⟩
  have hm1 : 1 ≤ m := by
    by_contra hcon
    push_neg at hcon
    have : (m : ℚ) ≤ 0 := by exact_mod_cast by omega
    have : (m : ℚ) / 60 ≤ 0 := by
      apply div_nonpos_of_nonpos_of_nonneg this (by norm_num)
    linarith [hm ▸ ht0]
  unfold updateTail
  by_cases hcont : (processObstacles push
      (clearPhase cHx (lifePhase cHx w)).obstacles
      (clearPhase cHx (lifePhase cHx w)).playerPos
      (clearPhase cHx (lifePhase cHx w)).lives).cont = false
  · simp only [hcont, if_true, if_pos rfl]
    refine ⟨by rw [hst3t]; linarith, by rw [hst3t]; linarith,
      ⟨m, by rw [hst3t]; exact hm⟩, ?_, ?_, by simp⟩
    · exact hloop.1
    · exact le_trans hloop.2.1 hst3l1
  · have hcont2 : (processObstacles push
        (clearPhase cHx (lifePhase cHx w)).obstacles
        (clearPhase cHx (lifePhase cHx w)).playerPos
        (clearPhase cHx (lifePhase cHx w)).lives).cont = true := by
      simpa using hcont
    simp only [hcont2, Bool.true_eq_false, if_false]
    have htr2 : (clearPhase cHx (lifePhase cHx w)).timeRemaining - 1/60 =
        ((m - 1 : ℤ) : ℚ) / 60 := by
      rw [hst3t, hm]; push_cast; ring
    refine ⟨?_, ?_, ⟨m - 1, htr2⟩, hloop.1, le_trans hloop.2.1 hst3l1, ?_⟩
    · rw [htr2]
      apply div_nonneg _ (by norm_num)
      exact_mod_cast by omega
    · rw [hst3t]; linarith
    · intro hc
      simp only [Bool.and_eq_true, decide_eq_true_eq] at hc
      exact ⟨hc.1, hloop.2.2.2 hcont2⟩

theorem update_bounds (push : Vec3 → Vec3) (cHx : ℚ) (rand : ℕ → ℚ)
    (mazeSize : ℚ) (keys : Keys) (st : World) (k : ℕ)
    (ht0 : 0 < st.timeRemaining) (ht1 : st.timeRemaining ≤ 60)
    (htl : ∃ m : ℤ, st.timeRemaining = m / 60)
    (hl0 : 1 ≤ st.lives) (hl1 : st.lives ≤ 4) :
    0 ≤ (update push cHx rand mazeSize keys st 0 k).world.timeRemaining ∧
    (update push cHx rand mazeSize keys st 0 k).world.timeRemaining ≤ 60 ∧
    (∃ m : ℤ, (update push cHx rand mazeSize keys st 0 k).world.timeRemaining = m / 60) ∧
    0 ≤ (update push cHx rand mazeSize keys st 0 k).world.lives ∧
    (update push cHx rand mazeSize keys st 0 k).world.lives ≤ 4 ∧
    ((update push cHx rand mazeSize keys st 0 k).cont = true →
      0 < (update push cHx rand mazeSize keys st 0 k).world.timeRemaining ∧
      1 ≤ (update push cHx rand mazeSize keys st 0 k).world.lives) := by
  unfold update
  by_cases hc : checkCollision ({ st with playerPos := resolvedPos keys st 0 }).playerPos
      ({ st with playerPos := resolvedPos keys st 0 }).collectiblePos = true
  · simp only [hc, if_true]
    have hproj := pickupBlock_proj rand mazeSize
      { st with playerPos := resolvedPos keys st 0 } 0 k
    have hbonus := bonus_time_facts st.timeRemaining ht0 ht1 htl
    apply updateTail_bounds
    · rw [hproj.2.2.2.2.1]; exact hbonus.1
    · rw [hproj.2.2.2.2.1]; exact hbonus.2.1
    · rw [hproj.2.2.2.2.1]; exact hbonus.2.2
    · rw [hproj.2.2.2.1]; exact hl0
    · rw [hproj.2.2.2.1]; exact hl1
  · simp only [hc, Bool.false_eq_true, if_false]
    exact updateTail_bounds push cHx _ 0 k ht0 ht1 htl hl0 hl1

theorem reachable_invariant (push : Vec3 → Vec3) (cHx : ℚ) (rand : ℕ → ℚ) :
    ∀ (w : World) (k : ℕ) (c : Bool), Reachable push cHx rand w k c →
    0 ≤ w.timeRemaining ∧ w.timeRemaining ≤ 60 ∧
    (∃ m : ℤ, w.timeRemaining = m / 60) ∧
    0 ≤ w.lives ∧ w.lives ≤ 4 ∧
    (c = true → 0 < w.timeRemaining ∧ 1 ≤ w.lives) := by
  intro w k c h
  induction h with
  | init =>
    refine ⟨by norm_num [initialWorld], by norm_num [initialWorld],
      ⟨1800, by norm_num [initialWorld]⟩, by norm_num [initialWorld],
      by norm_num [initialWorld],
      fun _ => ⟨by norm_num [initialWorld], by norm_num [initialWorld]⟩⟩
  | step w2 k2 keys hr ih =>
    have hact := ih.2.2.2.2.2 rfl
    have hb := update_bounds push cHx rand 200 keys w2 k2 hact.1 ih.2.1
      ih.2.2.1 hact.2 ih.2.2.2.2.1
    exact hb
  | tween w2 w3 k2 c2 hr htw ih =>
    obtain ⟨obs2, heq, _⟩ := htw
    subst heq
    simpa using ih

/-- C6: (a) in every state reachable by the frame loop (including game-over
states and tween interleavings), lives lie in [0, 4] and the timer in
[0, 60]; (b) a time-bonus addition that would exceed 60 clamps exactly to
60; (c) the life-pickup phase at lives = 4 is a complete no-op (lives stay 4
and the pickup stays visible). -/
theorem C6_session_bounds :
    (∀ (push : Vec3 → Vec3) (cHx : ℚ) (rand : ℕ → ℚ) (w : World) (k : ℕ)
        (c : Bool), Reachable push cHx rand w k c →
      0 ≤ w.lives ∧ w.lives ≤ 4 ∧ 0 ≤ w.timeRemaining ∧ w.timeRemaining ≤ 60) ∧
    (∀ (rand : ℕ → ℚ) (mazeSize : ℚ) (st : World) (d : ℚ) (k : ℕ),
      60 < st.timeRemaining + max (3 - d * (2/10)) (1/2) →
      (pickupBlock rand mazeSize st d k).1.timeRemaining = 60) ∧
    (∀ (cHx : ℚ) (st : World), st.lives = 4 → lifePhase cHx st = st) := by
  refine ⟨?_, ?_, ?_⟩
  · intro push cHx rand w k c h
    have hi := reachable_invariant push cHx rand w k c h
    exact ⟨hi.2.2.2.1, hi.2.2.2.2.1, hi.1, hi.2.1⟩
  · intro rand mazeSize st d k h
    rw [(pickupBlock_proj rand mazeSize st d k).2.2.2.2.1,
      min_eq_right (le_of_lt h)]
  · intro cHx st h
    unfold lifePhase
    split
    · rw [if_neg (by omega)]
    · rfl

/-- Witness for C6: the bounds at the initial state of the constant-1/2
session, a concrete clamping pickup (timer 59, bonus 3), and a concrete
no-op life contact at four lives. -/
theorem C6_session_bounds_witness :
    (0 ≤ (initialWorld randHalf).lives ∧ (initialWorld randHalf).lives ≤ 4 ∧
     0 ≤ (initialWorld randHalf).timeRemaining ∧
     (initialWorld randHalf).timeRemaining ≤ 60) ∧
    (pickupBlock randHalf 200 { worldQuiet with timeRemaining := 59 } 0 0).1.timeRemaining = 60 ∧
    lifePhase coneHalfX { worldQuiet with lives := 4 } = { worldQuiet with lives := 4 } :=
  ⟨C6_session_bounds.1 pushZero coneHalfX randHalf _ _ _ Reachable.init,
   C6_session_bounds.2.1 randHalf 200 { worldQuiet with timeRemaining := 59 } 0 0
     (by norm_num [worldQuiet]),
   C6_session_bounds.2.2 coneHalfX { worldQuiet with lives := 4 }
     (by norm_num [worldQuiet])⟩

end ArcadeCube
